import Mathlib

/-!
# Verification of the morrigan client-provider package

A shallow embedding of the client provisioning / token-lifecycle subsystem:

* `src/server/server.js` — the server-side client registry: `getClient`,
  `provisionClient`, `deprovisionClient`, `verifyToken`, the
  `ep_deprovisionClient` HTTP handler and the `token.refresh` / `state`
  connection-message handlers.
* the client agent module — `loadToken`, `saveToken`, `setup`,
  `onConnect`, `onDisconnect` and the `token.issue` message handler.

The MongoDB collections (`morrigan.clients`, `morrigan.clients.tokens`) are
modelled as lists of documents.  `findOne` returns a *value* (MongoDB
deserialises a fresh document on every query), so mutating the returned
record does not change the collection; only `insertOne` / `replaceOne` /
`deleteOne` do.  `deleteOne` and `replaceOne` affect the first matching
document, as in MongoDB.

Time is modelled by a `now : Nat` field (milliseconds); it is held fixed
inside a single operation, matching the granularity the claims need.
-/

namespace Morrigan

/-- A client document stored in the `morrigan.clients` collection.
`updated`, `tokenId` and `state` are absent until first assigned
(the JS object gains these properties dynamically). -/
structure ClientRecord where
  id : String
  created : Nat
  updated : Option Nat := none
  tokenId : Option Nat := none
  state : Option String := none
  deriving Repr, DecidableEq

/-- A token document stored in the `morrigan.clients.tokens` collection
(owned by the `TokenGenerator`, but the registry deletes from it directly
in `deprovisionClient`). -/
structure TokenRecord where
  id : Nat
  subject : String
  expires : Nat
  deriving Repr, DecidableEq

/-- `collection.findOne({id: cid})` on `morrigan.clients`:
first document whose `id` equals `cid`. -/
def findOneClient : List ClientRecord → String → Option ClientRecord
  | [], _ => none
  | r :: rest, cid => if r.id = cid then some r else findOneClient rest cid

/-- `collection.deleteOne({id: cid})` on `morrigan.clients`:
removes the first document whose `id` equals `cid`. -/
def deleteOneClient : List ClientRecord → String → List ClientRecord
  | [], _ => []
  | r :: rest, cid => if r.id = cid then rest else r :: deleteOneClient rest cid

/-- `collection.replaceOne({id: cid}, doc)` on `morrigan.clients`:
replaces the first document whose `id` equals `cid` (no upsert). -/
def replaceOneClient : List ClientRecord → String → ClientRecord → List ClientRecord
  | [], _, _ => []
  | r :: rest, cid, doc => if r.id = cid then doc :: rest else r :: replaceOneClient rest cid doc

/-- `collection.findOne({id: tid})` on `morrigan.clients.tokens`. -/
def findOneToken : List TokenRecord → Nat → Option TokenRecord
  | [], _ => none
  | r :: rest, tid => if r.id = tid then some r else findOneToken rest tid

/-- `collection.deleteOne({id: tid})` on `morrigan.clients.tokens`. -/
def deleteOneToken : List TokenRecord → Nat → List TokenRecord
  | [], _ => []
  | r :: rest, tid => if r.id = tid then rest else r :: deleteOneToken rest tid

/-- The server-side state the provider closes over: the two collections,
the id counter of the token generator, and the current time. -/
structure RegistryState where
  clientRecords : List ClientRecord
  tokenRecords : List TokenRecord
  nextTokenId : Nat
  now : Nat
  deriving Repr, DecidableEq

/-- A signed token as handed to a client.  The signed payload carries the
token-record id and the subject identity (`sub`); the signature itself is
abstracted away — a `Token` value stands for a syntactically valid,
correctly signed JWT for that record. -/
structure Token where
  tokenId : Nat
  subject : String
  deriving Repr, DecidableEq

/-- `tokenLifetime: { days: 30 }` from the `TokenGenerator` configuration
in `setup`, in milliseconds. -/
def tokenLifetime : Nat := 30 * 24 * 3600 * 1000

/-- Result of `tokens.newToken`: `t.token` and `t.record`. -/
structure MintResult where
  token : Token
  record : TokenRecord
  deriving Repr, DecidableEq

/-- Modelled from the spec: `tokens.newToken(subject)` of the external
`@adicitus/jwtgenerator` Token Authority (its source is not part of this
repository).  Per the spec it "mints a signed token for a subject
identity" and persists the token record (30-day lifetime) in the
collection it was configured with (`morrigan.clients.tokens`). -/
def newToken (s : RegistryState) (subject : String) : MintResult × RegistryState :=
  let rec_ : TokenRecord := { id := s.nextTokenId, subject := subject, expires := s.now + tokenLifetime }
  ({ token := { tokenId := rec_.id, subject := subject }, record := rec_ },
   { s with tokenRecords := s.tokenRecords ++ [rec_], nextTokenId := s.nextTokenId + 1 })

/-- Result of `tokens.verifyToken` as consumed by `verifyToken` in
`server.js`: `r.success`, `r.subject` on success, `r.status` / `r.reason`
on failure. -/
inductive TAResult where
  | ok (subject : String)
  | fail (status : String) (reason : String)
  deriving Repr, DecidableEq

/-- Modelled from the spec: `tokens.verifyToken(token)` of the external
`@adicitus/jwtgenerator` Token Authority.  Signature/expiry verification:
the presented token must resolve to a stored token record with the signed
subject and must not be past its expiry (the record store is what lets
deleting a token record "invalidate that credential", as the specified
deprovision contract requires). -/
def taVerifyToken (s : RegistryState) (tok : Token) : TAResult :=
  match findOneToken s.tokenRecords tok.tokenId with
  | none => .fail "no_matching_token" "No matching token on record."
  | some rec_ =>
      if rec_.subject = tok.subject ∧ s.now < rec_.expires then
        .ok rec_.subject
      else
        .fail "invalid_token" "Token invalid or expired."

/-- `getClient(clientId)` from `server.js`:
`clientRecords.findOne({ id: clientId })`. -/
def getClient (s : RegistryState) (clientId : String) : Option ClientRecord :=
  findOneClient s.clientRecords clientId

/-- `provisionClient(clientId)` from `server.js`: fetch or create the
client record, mint a new token, set `tokenId` and `updated` on the
record and `replaceOne` it back; returns the signed token. -/
def provisionClient (s : RegistryState) (clientId : String) : Token × RegistryState :=
  let client := getClient s clientId
  let rs : ClientRecord × RegistryState :=
    match client with
    | some c => (c, s)
    | none =>
        let record : ClientRecord := { id := clientId, created := s.now }
        (record, { s with clientRecords := s.clientRecords ++ [record] })
  let record := rs.1
  let s1 := rs.2
  let ts := newToken s1 clientId
  let t := ts.1
  let s2 := ts.2
  let record' := { record with tokenId := some t.record.id, updated := some s2.now }
  let s3 := { s2 with clientRecords := replaceOneClient s2.clientRecords record'.id record' }
  (t.token, s3)

/-- `deprovisionClient(clientId)` from `server.js`.  The argument is an
`Option String` because the endpoint handler can pass the JS value
`undefined` (`req.params.clientId` when the parameter is absent);
`findOne({id: undefined})` matches no stored document, every stored
document having a string `id`. -/
def deprovisionClient (s : RegistryState) (clientId? : Option String) : Bool × RegistryState :=
  let client :=
    match clientId? with
    | none => none
    | some cid => getClient s cid
  match client with
  | none => (false, s)
  | some c =>
      let s1 := { s with clientRecords := deleteOneClient s.clientRecords c.id }
      let s2 :=
        match c.tokenId with
        | some tid => { s1 with tokenRecords := deleteOneToken s1.tokenRecords tid }
        | none => s1
      (true, s2)

/-- Result of `verifyToken` in `server.js`: either
`(state: success, client)` (where `client` is whatever
`getClient(r.subject)` returned, possibly `null`) or
`(state: authenticationfailed, status, reason)`. -/
inductive VerifyResult where
  | success (client : Option ClientRecord)
  | authenticationfailed (status : String) (reason : String)
  deriving Repr, DecidableEq

/-- Whether a `verifyToken` result has state `success`. -/
def VerifyResult.isSuccess : VerifyResult → Bool
  | .success _ => true
  | .authenticationfailed _ _ => false

/-- `verifyToken(token)` from `server.js`: delegate to
`tokens.verifyToken`; on success resolve the subject through `getClient`
and answer state `success` with that client — with no check that the
resolved client exists. -/
def verifyToken (s : RegistryState) (tok : Token) : VerifyResult :=
  match taVerifyToken s tok with
  | .ok subject => .success (getClient s subject)
  | .fail status reason => .authenticationfailed status reason

/-- The `client.token.issue` message sent by the `token.refresh` handler
(`expires` is serialised with `toISO()`; we keep the timestamp). -/
structure IssueMessage where
  token : Token
  expires : Nat
  deriving Repr, DecidableEq

/-- The `token.refresh` message handler from `server.js`: mint a new token for
`record.clientId` (the identity bound to the connection) and send a
`client.token.issue` message with the token and its expiry.  Note: the
client record in the registry is not touched. -/
def tokenRefreshHandler (s : RegistryState) (clientId : String) : IssueMessage × RegistryState :=
  let rs := newToken s clientId
  ({ token := rs.1.token, expires := rs.1.record.expires }, rs.2)

/-- The `state` message handler from `server.js`: look the client up with
`getClient` and assign `client.state = message.state`.  `findOne`
returns a fresh deserialised document, so the assignment mutates only the
local copy; no `replaceOne`/`updateOne` is issued and the collection is
unchanged.  When the client does not exist the assignment throws
(`TypeError` on `null`), modelled as `none`. -/
def stateHandler (s : RegistryState) (clientId : String) (st : String) :
    Option RegistryState :=
  match getClient s clientId with
  | none => none
  | some c =>
      let _client := { c with state := some st }
      some s

/-! ## Client agent (token persistence and refresh loop)

The agent module keeps module-level variables `token` / `tokenExpires`
(both `null` at load) and two file paths derived from the state
directory.  The filesystem is a finite map from paths to file contents;
`readFileSync` on a missing path throws, `existsSync` tests presence,
`writeFileSync` creates or overwrites.  JS truthiness of a possibly
absent string (`undefined` and the empty string are falsy) is `jsTruthy`. -/

/-- Filesystem contents: association list from path to file content. -/
def FsState := List (String × String)

/-- `fs.existsSync(p)`. -/
def fsExists (fs : FsState) (p : String) : Bool :=
  (List.find? (fun e => e.1 = p) fs).isSome

/-- `fs.readFileSync(p)` — `none` models the throw on a missing path. -/
def fsRead (fs : FsState) (p : String) : Option String :=
  (List.find? (fun e => e.1 = p) fs).map (·.2)

/-- `fs.writeFileSync(p, data)`: create or overwrite. -/
def fsWrite : FsState → String → String → FsState
  | [], p, data => [(p, data)]
  | e :: rest, p, data =>
      if e.1 = p then (p, data) :: rest else e :: fsWrite rest p data

/-- JS truthiness of a string variable that may be `undefined`/`null`
(`undefined`, `null` and the empty string are falsy). -/
def jsTruthy : Option String → Bool
  | none => false
  | some s => s ≠ ""

/-- Command-line arguments object (`core.args`); each field may be
absent.  The object itself may be absent too — call sites hold an
`Option Args`. -/
structure Args where
  token : Option String := none
  tokenFile : Option String := none
  force : Bool := false
  deriving Repr, DecidableEq

/-- `core.settings` for this provider. -/
structure Settings where
  token : Option String := none
  deriving Repr, DecidableEq

/-- The `core` handle the agent host passes to `setup`. -/
structure Core where
  stateDir : String
  args : Option Args := none
  settings : Settings := {}
  deriving Repr, DecidableEq

/-- `tokenPath = stateDir + "/token"`. -/
def tokenPathOf (core : Core) : String := core.stateDir ++ "/token"

/-- `tokenExpirationPath = stateDir + "/token.expiration"`. -/
def tokenExpirationPathOf (core : Core) : String := core.stateDir ++ "/token.expiration"

/-- The module-level variables `token` and `tokenExpires`
(both `null` until assigned). -/
structure AgentVars where
  token : Option String := none
  tokenExpires : Option String := none
  deriving Repr, DecidableEq

/-- `loadToken()`: read the token file into `token`; if that throws
(missing file) return `false` with the variables untouched; otherwise
also read the expiration file when it exists, and return `true`. -/
def loadToken (core : Core) (v : AgentVars) (fs : FsState) : Bool × AgentVars :=
  match fsRead fs (tokenPathOf core) with
  | none => (false, v)
  | some t =>
      let v1 := { v with token := some t }
      let v2 :=
        if fsExists fs (tokenExpirationPathOf core) then
          { v1 with tokenExpires := fsRead fs (tokenExpirationPathOf core) }
        else v1
      (true, v2)

/-- `saveToken()`: write `token` to the token path and, when
`tokenExpires` is truthy, write it to the expiration path.  Every call
site assigns `token` a string first, hence the `getD`. -/
def saveToken (core : Core) (v : AgentVars) (fs : FsState) : FsState :=
  let fs1 := fsWrite fs (tokenPathOf core) (v.token.getD "")
  if jsTruthy v.tokenExpires then
    fsWrite fs1 (tokenExpirationPathOf core) (v.tokenExpires.getD "")
  else fs1

/-- `core.args && core.args.force && (core.args.token || core.args.tokenFile)`:
a forced credential override was requested on the command line. -/
def forcedOverride (core : Core) : Bool :=
  match core.args with
  | none => false
  | some a => a.force && (jsTruthy a.token || jsTruthy a.tokenFile)

/-- Credential source resolution of the cold-start branch, phrased as in
the spec: the first available of the explicitly supplied raw token, the
explicitly supplied token-bearing file, the configured fallback token
(`none` when no source is available). -/
def coldCredential (a : Args) (settings : Settings) (fs : FsState) : Option String :=
  if jsTruthy a.token then a.token
  else if jsTruthy a.tokenFile && fsExists fs (a.tokenFile.getD "") then
    fsRead fs (a.tokenFile.getD "")
  else if jsTruthy settings.token then settings.token
  else none

/-- `setup(core)` of the agent module.  When no token file is persisted,
or a forced override was supplied, acquire a token from the command-line
token, the command-line token file (if it exists), or the configured
fallback token — in that order — and `saveToken()`; throw
`No token set provided.` when none is available (and a `TypeError`
when the branch dereferences `core.args.token` with `core.args`
absent).  Otherwise log any ignored command-line token and `loadToken()`
(the `console.log` has no state effect). -/
def setup (core : Core) (fs : FsState) : Except String (AgentVars × FsState) :=
  if !(fsExists fs (tokenPathOf core)) || forcedOverride core then
    match core.args with
    | none => .error "TypeError: Cannot read properties of undefined"
    | some a =>
        if jsTruthy a.token then
          let v : AgentVars := { token := a.token }
          .ok (v, saveToken core v fs)
        else if jsTruthy a.tokenFile && fsExists fs (a.tokenFile.getD "") then
          let v : AgentVars := { token := fsRead fs (a.tokenFile.getD "") }
          .ok (v, saveToken core v fs)
        else if jsTruthy core.settings.token then
          let v : AgentVars := { token := core.settings.token }
          .ok (v, saveToken core v fs)
        else
          .error "No token set provided."
  else
    let bv := loadToken core {} fs
    .ok (bv.2, fs)

/-- The `token.issue` message handler of the agent module: overwrite `token` and
`tokenExpires` from the issuance message, then `saveToken()`. -/
def onTokenIssue (core : Core) (msgToken msgExpires : String) (fs : FsState) :
    AgentVars × FsState :=
  let v : AgentVars := { token := some msgToken, tokenExpires := some msgExpires }
  (v, saveToken core v fs)

/-! ## Node timer environment for the refresh loop of the agent

`setInterval` arms a recurring timer and returns a handle;
`clearInterval` cancels such a timer.  `clearImmediate` cancels an
*Immediate* created by `setImmediate`; per the documented Node semantics it
has no effect on a timer created by `setInterval`.  The only callback the
agent ever schedules sends a `client.token.refresh` request, so firing an
armed interval appends that request to the sent log. -/

/-- Timer environment: armed interval timers (handle, delay in ms),
armed immediates, a fresh-handle counter, and the log of connection
messages sent so far. -/
structure TimerWorld where
  intervals : List (Nat × Nat) := []
  immediates : List Nat := []
  nextTimerId : Nat := 0
  sent : List String := []
  deriving Repr, DecidableEq

/-- `setInterval(cb, delayMs)`: arm a recurring timer, return its handle. -/
def setIntervalRefresh (w : TimerWorld) (delayMs : Nat) : Nat × TimerWorld :=
  (w.nextTimerId,
   { w with intervals := w.intervals ++ [(w.nextTimerId, delayMs)],
            nextTimerId := w.nextTimerId + 1 })

/-- `clearInterval(handle)`: cancel the interval timer with that handle. -/
def clearIntervalFn (w : TimerWorld) (id : Nat) : TimerWorld :=
  { w with intervals := w.intervals.filter (fun t => t.1 ≠ id) }

/-- `clearImmediate(handle)`: cancel the immediate with that handle;
interval timers are untouched. -/
def clearImmediateFn (w : TimerWorld) (id : Nat) : TimerWorld :=
  { w with immediates := w.immediates.filter (fun i => i ≠ id) }

/-- The Node event loop fires an armed interval timer: the armed
agent interval callback sends a `client.token.refresh` request.  A cancelled
(or never armed) handle fires nothing. -/
def fireInterval (w : TimerWorld) (id : Nat) : TimerWorld :=
  if w.intervals.any (fun t => t.1 = id) then
    { w with sent := w.sent ++ ["client.token.refresh"] }
  else w

/-- The module-level variable `tokenRefreshInterval` of the agent. -/
structure AgentTimers where
  tokenRefreshInterval : Option Nat := none
  deriving Repr, DecidableEq

/-- `onConnect(connection)` of the agent module: immediately send a
`client.token.refresh` request, then arm a recurring 8-hour interval
whose callback sends the same request, storing its handle in
`tokenRefreshInterval`. -/
def onConnect (a : AgentTimers) (w : TimerWorld) : AgentTimers × TimerWorld :=
  let w1 := { w with sent := w.sent ++ ["client.token.refresh"] }
  let iw := setIntervalRefresh w1 (8 * 3600 * 1000)
  ({ a with tokenRefreshInterval := some iw.1 }, iw.2)

/-- `onDisconnect()` of the agent module: when `tokenRefreshInterval` is
set, call `clearImmediate` on it. -/
def onDisconnect (a : AgentTimers) (w : TimerWorld) : TimerWorld :=
  match a.tokenRefreshInterval with
  | some id => clearImmediateFn w id
  | none => w

/-! ## HTTP endpoint glue (`ep_deprovisionClient`) -/

/-- Route parameters of a DELETE request; `clientId` may be absent. -/
structure Params where
  clientId : Option String := none
  deriving Repr, DecidableEq

/-- The request object as the deprovision handler reads it;
`params` itself may be absent. -/
structure Request where
  params : Option Params := none
  deriving Repr, DecidableEq

/-- One call on the Express response object. -/
inductive RespEvent where
  | status (code : Nat)
  | send (body : String)
  | resEnd
  deriving Repr, DecidableEq

/-- `ep_deprovisionClient(req, res)` from `server.js`.  The missing-id
guard writes a 400 response but does not `return`, so control falls
through to `deprovisionClient(req.params.clientId)` regardless; the
result is the ordered trace of calls attempted on `res` paired with the
outcome of the `deprovisionClient` call (`none` when `req.params` is
wholly absent, in which case reading `.clientId` of `undefined` throws a
`TypeError` and the promise chain never starts).  A second `res.status`
after `res.send` raises in Express, but only after `deprovisionClient`
has already executed. -/
def ep_deprovisionClient (s : RegistryState) (req : Request) :
    List RespEvent × Option (Bool × RegistryState) :=
  let pre : List RespEvent :=
    match req.params with
    | none => [.status 400, .send "No client ID provided."]
    | some p =>
        if jsTruthy p.clientId then [] else [.status 400, .send "No client ID provided."]
  match req.params with
  | none => (pre, none)
  | some p =>
      let bs := deprovisionClient s p.clientId
      let tail : List RespEvent :=
        if bs.1 then [.status 200, .resEnd] else [.status 204, .resEnd]
      (pre ++ tail, some bs)

/-! ## Derived record shapes used in statements -/

/-- The token record `tokens.newToken` stores when called on state `s`
for `subject`. -/
def mintRec (s : RegistryState) (subject : String) : TokenRecord :=
  { id := s.nextTokenId, subject := subject, expires := s.now + tokenLifetime }

/-- The client record `provisionClient` leaves in the registry for
`clientId`: the prior record (or a freshly created one) with `tokenId`
pointing at the newly minted token and `updated` set. -/
def provisionedRecord (s : RegistryState) (clientId : String) : ClientRecord :=
  match getClient s clientId with
  | some c => { c with tokenId := some s.nextTokenId, updated := some s.now }
  | none =>
      { id := clientId, created := s.now, tokenId := some s.nextTokenId, updated := some s.now }

/-- The registry state of a freshly started server: empty collections. -/
def emptyRegistry : RegistryState :=
  { clientRecords := [], tokenRecords := [], nextTokenId := 0, now := 0 }

/-- A small populated registry used to instantiate the general theorems:
two provisioned clients, the first holding token 5, the second holding
no token, and an unrelated token record 7. -/
def sampleRegistry : RegistryState :=
  { clientRecords :=
      [{ id := "agent-a", created := 1, updated := some 2, tokenId := some 5 },
       { id := "agent-b", created := 1 }],
    tokenRecords :=
      [{ id := 5, subject := "agent-a", expires := 99 },
       { id := 7, subject := "agent-b", expires := 99 }],
    nextTokenId := 8,
    now := 3 }

/-! ## Lemmas about the collection primitives -/

theorem findOneClient_id {l : List ClientRecord} {cid : String} {c : ClientRecord}
    (h : findOneClient l cid = some c) : c.id = cid := by
  induction l with
  | nil => simp [findOneClient] at h
  | cons r rest ih =>
      rw [findOneClient] at h
      split at h
      · cases h; assumption
      · exact ih h

theorem findOneClient_eq_none {l : List ClientRecord} {cid : String}
    (h : ∀ r ∈ l, r.id ≠ cid) : findOneClient l cid = none := by
  induction l with
  | nil => rfl
  | cons r rest ih =>
      rw [findOneClient]
      rw [if_neg (h r (List.mem_cons_self r rest))]
      exact ih fun x hx => h x (List.mem_cons_of_mem r hx)

theorem findOneClient_append_left_none {l l2 : List ClientRecord} {cid : String}
    (h : findOneClient l cid = none) :
    findOneClient (l ++ l2) cid = findOneClient l2 cid := by
  induction l with
  | nil => rfl
  | cons r rest ih =>
      rw [findOneClient] at h
      split at h
      · cases h
      · rw [List.cons_append, findOneClient, if_neg (by assumption)]
        exact ih h

theorem replaceOneClient_append_not_found {l : List ClientRecord} {cid : String}
    {r doc : ClientRecord} (h : findOneClient l cid = none) (hr : r.id = cid) :
    replaceOneClient (l ++ [r]) cid doc = l ++ [doc] := by
  induction l with
  | nil => simp [replaceOneClient, hr]
  | cons x rest ih =>
      rw [findOneClient] at h
      split at h
      · cases h
      · rw [List.cons_append, replaceOneClient, if_neg (by assumption), List.cons_append]
        rw [ih h]

theorem findOneClient_replaceOne_self {l : List ClientRecord} {cid : String}
    {c doc : ClientRecord} (h : findOneClient l cid = some c) (hd : doc.id = cid) :
    findOneClient (replaceOneClient l cid doc) cid = some doc := by
  induction l with
  | nil => simp [findOneClient] at h
  | cons r rest ih =>
      rw [findOneClient] at h
      rw [replaceOneClient]
      split at h
      · rw [if_pos (by assumption), findOneClient, if_pos hd]
      · rw [if_neg (by assumption), findOneClient, if_neg (by assumption)]
        exact ih h

theorem findOneClient_deleteOne_self {l : List ClientRecord} {cid : String}
    (hnd : (l.map (·.id)).Nodup) : findOneClient (deleteOneClient l cid) cid = none := by
  induction l with
  | nil => rfl
  | cons r rest ih =>
      rw [List.map_cons, List.nodup_cons] at hnd
      rw [deleteOneClient]
      split
      · refine findOneClient_eq_none fun x hx heq => hnd.1 ?_
        rw [← (by assumption : r.id = cid)] at heq
        exact heq ▸ List.mem_map_of_mem (·.id) hx
      · rw [findOneClient, if_neg (by assumption)]
        exact ih hnd.2

theorem findOneClient_deleteOne_ne {l : List ClientRecord} {cid cid2 : String}
    (h : cid2 ≠ cid) : findOneClient (deleteOneClient l cid) cid2 = findOneClient l cid2 := by
  induction l with
  | nil => rfl
  | cons r rest ih =>
      by_cases hr : r.id = cid
      · have hcc : cid ≠ cid2 := fun hh => h hh.symm
        simp [deleteOneClient, hr, findOneClient, hcc]
      · by_cases hr2 : r.id = cid2
        · simp [deleteOneClient, hr, findOneClient, hr2, h]
        · simp [deleteOneClient, hr, findOneClient, hr2, ih]

theorem findOneToken_eq_none {l : List TokenRecord} {tid : Nat}
    (h : ∀ r ∈ l, r.id ≠ tid) : findOneToken l tid = none := by
  induction l with
  | nil => rfl
  | cons r rest ih =>
      rw [findOneToken]
      rw [if_neg (h r (List.mem_cons_self r rest))]
      exact ih fun x hx => h x (List.mem_cons_of_mem r hx)

theorem findOneToken_append_left_none {l l2 : List TokenRecord} {tid : Nat}
    (h : findOneToken l tid = none) :
    findOneToken (l ++ l2) tid = findOneToken l2 tid := by
  induction l with
  | nil => rfl
  | cons r rest ih =>
      rw [findOneToken] at h
      split at h
      · cases h
      · rw [List.cons_append, findOneToken, if_neg (by assumption)]
        exact ih h

theorem findOneToken_deleteOne_self {l : List TokenRecord} {tid : Nat}
    (hnd : (l.map (·.id)).Nodup) : findOneToken (deleteOneToken l tid) tid = none := by
  induction l with
  | nil => rfl
  | cons r rest ih =>
      rw [List.map_cons, List.nodup_cons] at hnd
      rw [deleteOneToken]
      split
      · refine findOneToken_eq_none fun x hx heq => hnd.1 ?_
        rw [← (by assumption : r.id = tid)] at heq
        exact heq ▸ List.mem_map_of_mem (·.id) hx
      · rw [findOneToken, if_neg (by assumption)]
        exact ih hnd.2

theorem findOneToken_deleteOne_ne {l : List TokenRecord} {tid tid2 : Nat}
    (h : tid2 ≠ tid) : findOneToken (deleteOneToken l tid) tid2 = findOneToken l tid2 := by
  induction l with
  | nil => rfl
  | cons r rest ih =>
      by_cases hr : r.id = tid
      · have hcc : tid ≠ tid2 := fun hh => h hh.symm
        simp [deleteOneToken, hr, findOneToken, hcc]
      · by_cases hr2 : r.id = tid2
        · simp [deleteOneToken, hr, findOneToken, hr2, h]
        · simp [deleteOneToken, hr, findOneToken, hr2, ih]

/-! ## Lemmas about `provisionClient` -/

theorem provisionClient_token (s : RegistryState) (cid : String) :
    (provisionClient s cid).1 = { tokenId := s.nextTokenId, subject := cid } := by
  unfold provisionClient
  cases hc : getClient s cid <;> simp [hc, newToken]

theorem provisionClient_tokenRecords (s : RegistryState) (cid : String) :
    (provisionClient s cid).2.tokenRecords = s.tokenRecords ++ [mintRec s cid] := by
  unfold provisionClient
  cases hc : getClient s cid <;> simp [hc, newToken, mintRec]

theorem provisionClient_nextTokenId (s : RegistryState) (cid : String) :
    (provisionClient s cid).2.nextTokenId = s.nextTokenId + 1 := by
  unfold provisionClient
  cases hc : getClient s cid <;> simp [hc, newToken]

theorem provisionClient_now (s : RegistryState) (cid : String) :
    (provisionClient s cid).2.now = s.now := by
  unfold provisionClient
  cases hc : getClient s cid <;> simp [hc, newToken]

theorem getClient_provisionClient_self (s : RegistryState) (cid : String) :
    getClient (provisionClient s cid).2 cid = some (provisionedRecord s cid) := by
  unfold provisionClient provisionedRecord getClient
  rcases hc : findOneClient s.clientRecords cid with _ | c
  · simp only [hc, newToken]
    rw [replaceOneClient_append_not_found hc rfl]
    rw [findOneClient_append_left_none hc]
    simp [findOneClient]
  · have hcid : c.id = cid := findOneClient_id hc
    simp only [hc, newToken, hcid]
    exact findOneClient_replaceOne_self hc rfl

/-! ## Lemmas about the agent filesystem -/

theorem fsRead_fsWrite_self (fs : FsState) (p data : String) :
    fsRead (fsWrite fs p data) p = some data := by
  induction fs with
  | nil => simp [fsWrite, fsRead, List.find?]
  | cons e rest ih =>
      by_cases he : e.1 = p
      · simp [fsWrite, he, fsRead, List.find?]
      · simp only [fsWrite, if_neg he]
        unfold fsRead at ih ⊢
        rw [List.find?_cons_of_neg _ (by simp [he])]
        exact ih

theorem fsRead_isSome_eq_fsExists (fs : FsState) (p : String) :
    (fsRead fs p).isSome = fsExists fs p := by
  unfold fsRead fsExists
  cases List.find? (fun e => e.1 = p) fs <;> rfl

/-! ## Claim theorems -/

/-- C1: the spec requires `verifyToken` to report a verification failure
when the Token Authority accepts the token but the subject has no
ClientRecord in the registry.  The code does the opposite.  Failing run:
provision `agent-42`, deprovision it, then serve a `token.refresh` for
the still-open connection — the handler mints a fresh valid token for the
deleted identity, and `verifyToken` on that token answers state
`success` with `client = none` instead of a failure. -/
theorem verifyToken_succeeds_for_deprovisioned_subject :
    (let s1 := (provisionClient emptyRegistry "agent-42").2
     let s2 := (deprovisionClient s1 (some "agent-42")).2
     let rf := tokenRefreshHandler s2 "agent-42"
     verifyToken rf.2 rf.1.token = VerifyResult.success none) := rfl

/-- C2: the spec requires the recurring 8-hour refresh timer to be
cancelled by the disconnect handler.  `onDisconnect` instead calls
`clearImmediate` on the `setInterval` handle, which cancels nothing:
after connect-then-disconnect the interval is still armed, and firing it
emits a further `client.token.refresh` while disconnected. -/
theorem refresh_interval_survives_disconnect :
    (let cw := onConnect {} {}
     let w2 := onDisconnect cw.1 cw.2
     w2.intervals = [(0, 8 * 3600 * 1000)] ∧
       (fireInterval w2 0).sent = ["client.token.refresh", "client.token.refresh"]) :=
  ⟨rfl, rfl⟩

/-- C3 counterexample: handling `token.refresh` for provisioned client
`agent-1` does not reassign the ClientRecord token reference to the id
of the newly minted token — the record still points at the token minted
at provisioning. -/
theorem tokenRefresh_keeps_stale_tokenId_cex :
    (let p := provisionClient emptyRegistry "agent-1"
     let rf := tokenRefreshHandler p.2 "agent-1"
     ¬ ((getClient rf.2 "agent-1").map ClientRecord.tokenId
          = some (some rf.1.token.tokenId))) := by
  decide

/-- C3 amended: handling `token.refresh` mints a new token for the bound
identity and sends it with its expiry over the connection, storing the
new token record, but leaves the client records — in particular the
`tokenId` reference — entirely unchanged; only provisioning reassigns
`tokenId`. -/
theorem tokenRefresh_sends_fresh_token_without_registry_update
    (s : RegistryState) (cid : String) :
    (tokenRefreshHandler s cid).2.clientRecords = s.clientRecords ∧
    (tokenRefreshHandler s cid).1.token = { tokenId := s.nextTokenId, subject := cid } ∧
    (tokenRefreshHandler s cid).1.expires = s.now + tokenLifetime ∧
    (tokenRefreshHandler s cid).2.tokenRecords = s.tokenRecords ++ [mintRec s cid] :=
  ⟨rfl, rfl, rfl, rfl⟩

/-- C4 counterexample: provisioning `agent-1` twice does not invalidate
the first returned token — verifying it afterwards still reports
success, resolving to the client record (whose reference meanwhile
points at the second token). -/
theorem provision_twice_first_token_verifies_cex :
    (let p1 := provisionClient emptyRegistry "agent-1"
     let p2 := provisionClient p1.2 "agent-1"
     verifyToken p2.2 p1.1 =
       VerifyResult.success
         (some { id := "agent-1", created := 0, updated := some 0,
                 tokenId := some 1, state := none })) := rfl

/-- C8: the spec requires the deprovision endpoint not to proceed past
the missing-id guard.  The guard writes the 400 response but does not
return, so the handler still calls `deprovisionClient(undefined)` and
then attempts a second (204) response; with `params` absent entirely it
throws after the 400 instead.  Evaluated on a registry holding two
clients. -/
theorem ep_deprovision_missing_id_still_runs_deprovision :
    ep_deprovisionClient sampleRegistry { params := some {} } =
      ([.status 400, .send "No client ID provided.", .status 204, .resEnd],
       some (false, sampleRegistry)) ∧
    ep_deprovisionClient sampleRegistry { params := none } =
      ([.status 400, .send "No client ID provided."], none) :=
  ⟨rfl, rfl⟩

/-- C9: the spec requires the `state` message handler to record the
reported state on the ClientRecord (observable by a later `getClient`)
and to touch the `updated` timestamp.  The handler only mutates the
local copy returned by `findOne` and never writes it back: afterwards
`getClient` still observes no `state` and the `updated` timestamp from
provisioning time 5, not the current time 99. -/
theorem stateHandler_does_not_persist_state :
    (let p := provisionClient
        { clientRecords := [], tokenRecords := [], nextTokenId := 0, now := 5 } "agent-9"
     let s1 : RegistryState := { p.2 with now := 99 }
     stateHandler s1 "agent-9" "ready" = some s1 ∧
       (getClient s1 "agent-9").map ClientRecord.state = some none ∧
       (getClient s1 "agent-9").map ClientRecord.updated = some (some 5)) :=
  ⟨rfl, rfl, rfl⟩

/-- C10: `provisionClient` never removes a superseded token record — the
token store only grows by the newly minted record, while the client
record token reference is repointed at the new token id; the
`token.refresh` handler likewise only appends its fresh mint, the
`state` handler leaves the token store untouched, and `verifyToken` is
read-only by type — among the registry operations only
`deprovisionClient` deletes token records. -/
theorem provision_keeps_superseded_token_records
    (s : RegistryState) (cid st : String) :
    (provisionClient s cid).2.tokenRecords = s.tokenRecords ++ [mintRec s cid] ∧
    (getClient (provisionClient s cid).2 cid).map ClientRecord.tokenId
      = some (some s.nextTokenId) ∧
    (tokenRefreshHandler s cid).2.tokenRecords = s.tokenRecords ++ [mintRec s cid] ∧
    ((stateHandler s cid st).getD s).tokenRecords = s.tokenRecords := by
  refine ⟨provisionClient_tokenRecords s cid, ?_, rfl, ?_⟩
  · rw [getClient_provisionClient_self]
    unfold provisionedRecord
    cases hc : getClient s cid <;> simp
  · unfold stateHandler
    cases hc : getClient s cid <;> simp [hc]

/-- C4 amended: after provisioning the same identity twice, the first
returned token is *not* invalidated: its token record is still in the
token store (re-provisioning only appends the new mint and repoints the
client record), so verifying the first token still reports success.
Tokens only stop verifying when their record is deleted, which
`deprovisionClient` alone does. -/
theorem provision_twice_first_token_still_verifies
    (s : RegistryState) (cid : String)
    (hb : ∀ r ∈ s.tokenRecords, r.id < s.nextTokenId) :
    findOneToken (provisionClient (provisionClient s cid).2 cid).2.tokenRecords
        s.nextTokenId = some (mintRec s cid) ∧
    (verifyToken (provisionClient (provisionClient s cid).2 cid).2
        (provisionClient s cid).1).isSuccess = true := by
  have h1t := provisionClient_tokenRecords s cid
  have h2t : (provisionClient (provisionClient s cid).2 cid).2.tokenRecords
      = (s.tokenRecords ++ [mintRec s cid])
          ++ [mintRec (provisionClient s cid).2 cid] := by
    rw [provisionClient_tokenRecords, h1t]
  have hnone : findOneToken s.tokenRecords s.nextTokenId = none :=
    findOneToken_eq_none fun r hr => Nat.ne_of_lt (hb r hr)
  have hfind : findOneToken
      (provisionClient (provisionClient s cid).2 cid).2.tokenRecords s.nextTokenId
      = some (mintRec s cid) := by
    rw [h2t, List.append_assoc, findOneToken_append_left_none hnone]
    simp [findOneToken, mintRec]
  refine ⟨hfind, ?_⟩
  have hlt : s.now < s.now + tokenLifetime := by unfold tokenLifetime; omega
  simp only [verifyToken, taVerifyToken, provisionClient_token, hfind]
  simp [mintRec, provisionClient_now, hlt, VerifyResult.isSuccess]

/-- Witness for the C4 amended theorem at a concrete run from the empty
registry. -/
theorem provision_twice_first_token_still_verifies_witness :
    findOneToken (provisionClient (provisionClient emptyRegistry "agent-7").2
        "agent-7").2.tokenRecords 0 = some (mintRec emptyRegistry "agent-7") ∧
    (verifyToken (provisionClient (provisionClient emptyRegistry "agent-7").2 "agent-7").2
        (provisionClient emptyRegistry "agent-7").1).isSuccess = true :=
  provision_twice_first_token_still_verifies emptyRegistry "agent-7"
    (fun r hr => absurd hr (List.not_mem_nil r))

/-- C5: `deprovisionClient` returns `false` with the state untouched when
no client record matches; when one matches it returns `true`, removes
that client record (other clients unaffected) and, exactly when the
record held a token reference, removes the referenced token record
(other token records unaffected). -/
theorem deprovisionClient_contract (s : RegistryState) (cid : String)
    (hcnd : (s.clientRecords.map ClientRecord.id).Nodup)
    (htnd : (s.tokenRecords.map TokenRecord.id).Nodup) :
    (getClient s cid = none → deprovisionClient s (some cid) = (false, s)) ∧
    (∀ c, getClient s cid = some c →
      (deprovisionClient s (some cid)).1 = true ∧
      getClient (deprovisionClient s (some cid)).2 cid = none ∧
      (∀ tid, c.tokenId = some tid →
        findOneToken (deprovisionClient s (some cid)).2.tokenRecords tid = none) ∧
      (c.tokenId = none →
        (deprovisionClient s (some cid)).2.tokenRecords = s.tokenRecords) ∧
      (∀ cid2, cid2 ≠ cid →
        getClient (deprovisionClient s (some cid)).2 cid2 = getClient s cid2) ∧
      (∀ tid2, c.tokenId ≠ some tid2 →
        findOneToken (deprovisionClient s (some cid)).2.tokenRecords tid2
          = findOneToken s.tokenRecords tid2)) := by
  constructor
  · intro h
    simp [deprovisionClient, h]
  · intro c hc
    have hcid : c.id = cid := findOneClient_id hc
    have hc2 : findOneClient s.clientRecords cid = some c := hc
    refine ⟨?_, ?_, ?_, ?_, ?_, ?_⟩
    · simp [deprovisionClient, hc]
    · cases htid : c.tokenId <;>
        · simp only [deprovisionClient, getClient, hc2, htid]
          rw [hcid]
          exact findOneClient_deleteOne_self hcnd
    · intro tid htid
      simp only [deprovisionClient, getClient, hc2, htid]
      exact findOneToken_deleteOne_self htnd
    · intro htid
      simp [deprovisionClient, hc, htid]
    · intro cid2 hne
      cases htid : c.tokenId <;>
        · simp only [deprovisionClient, getClient, hc2, htid]
          exact findOneClient_deleteOne_ne (hcid.symm ▸ hne)
    · intro tid2 hne
      cases htid : c.tokenId with
      | none => simp [deprovisionClient, hc, htid]
      | some tid =>
          have htt : tid2 ≠ tid :=
            fun hh => hne (htid.trans (by rw [hh]))
          simp only [deprovisionClient, getClient, hc2, htid]
          exact findOneToken_deleteOne_ne htt

/-- Witness for the C5 theorem on `sampleRegistry`, deprovisioning
`agent-a` (which holds token 5): the call reports `true`, the client and
its token record disappear, while `agent-b` and token 7 are untouched. -/
theorem deprovisionClient_contract_witness :
    (deprovisionClient sampleRegistry (some "agent-a")).1 = true ∧
    getClient (deprovisionClient sampleRegistry (some "agent-a")).2 "agent-a" = none ∧
    findOneToken (deprovisionClient sampleRegistry (some "agent-a")).2.tokenRecords 5
      = none ∧
    getClient (deprovisionClient sampleRegistry (some "agent-a")).2 "agent-b"
      = getClient sampleRegistry "agent-b" ∧
    findOneToken (deprovisionClient sampleRegistry (some "agent-a")).2.tokenRecords 7
      = findOneToken sampleRegistry.tokenRecords 7 := by
  have h := (deprovisionClient_contract sampleRegistry "agent-a" (by decide) (by decide)).2
      { id := "agent-a", created := 1, updated := some 2, tokenId := some 5 } rfl
  exact ⟨h.1, h.2.1, h.2.2.1 5 rfl, h.2.2.2.2.1 "agent-b" (by decide),
         h.2.2.2.2.2 7 (by decide)⟩

/-- C6: at cold start (no persisted token file, or a forced override
supplied) and given an args object, `setup` takes the credential from
the first available of the supplied raw token, the supplied token file
and the configured fallback token (`coldCredential`); when none is
available it throws `No token set provided.`, and otherwise the acquired
token is already persisted at the token path in the filesystem `setup`
returns — before any connection is attempted. -/
theorem setup_cold_start (core : Core) (fs : FsState) (a : Args)
    (hargs : core.args = some a)
    (hcold : fsExists fs (tokenPathOf core) = false ∨ forcedOverride core = true) :
    (∀ t, coldCredential a core.settings fs = some t →
        setup core fs = .ok ({ token := some t }, fsWrite fs (tokenPathOf core) t) ∧
        fsRead (fsWrite fs (tokenPathOf core) t) (tokenPathOf core) = some t) ∧
    (coldCredential a core.settings fs = none →
        setup core fs = .error "No token set provided.") := by
  have hcond : (!fsExists fs (tokenPathOf core) || forcedOverride core) = true := by
    rcases hcold with h | h <;> simp [h]
  have hsetup : setup core fs =
      (if jsTruthy a.token then
        .ok (({ token := a.token } : AgentVars), saveToken core { token := a.token } fs)
      else if jsTruthy a.tokenFile && fsExists fs (a.tokenFile.getD "") then
        .ok (({ token := fsRead fs (a.tokenFile.getD "") } : AgentVars),
             saveToken core { token := fsRead fs (a.tokenFile.getD "") } fs)
      else if jsTruthy core.settings.token then
        .ok (({ token := core.settings.token } : AgentVars),
             saveToken core { token := core.settings.token } fs)
      else .error "No token set provided.") := by
    simp [setup, hcond, hargs]
  constructor
  · intro t ht
    rw [hsetup]
    unfold coldCredential at ht
    by_cases h1 : jsTruthy a.token = true
    · rw [if_pos h1] at ht ⊢
      rw [ht]
      exact ⟨rfl, fsRead_fsWrite_self fs _ t⟩
    · rw [if_neg h1] at ht ⊢
      by_cases h2 : (jsTruthy a.tokenFile && fsExists fs (a.tokenFile.getD "")) = true
      · rw [if_pos h2] at ht ⊢
        rw [ht]
        exact ⟨rfl, fsRead_fsWrite_self fs _ t⟩
      · rw [if_neg h2] at ht ⊢
        by_cases h3 : jsTruthy core.settings.token = true
        · rw [if_pos h3] at ht ⊢
          rw [ht]
          exact ⟨rfl, fsRead_fsWrite_self fs _ t⟩
        · rw [if_neg h3] at ht
          cases ht
  · intro hn
    rw [hsetup]
    unfold coldCredential at hn
    by_cases h1 : jsTruthy a.token = true
    · rw [if_pos h1] at hn
      rw [hn] at h1
      simp [jsTruthy] at h1
    · rw [if_neg h1] at hn
      by_cases h2 : (jsTruthy a.tokenFile && fsExists fs (a.tokenFile.getD "")) = true
      · rw [if_pos h2] at hn
        have hsome := fsRead_isSome_eq_fsExists fs (a.tokenFile.getD "")
        rw [hn, (Bool.and_eq_true _ _).mp h2 |>.2] at hsome
        cases hsome
      · rw [if_neg h2] at hn
        by_cases h3 : jsTruthy core.settings.token = true
        · rw [if_pos h3] at hn
          rw [hn] at h3
          simp [jsTruthy] at h3
        · rw [if_neg h1, if_neg h2, if_neg h3]

/-- Witness for the C6 theorem: cold start with an empty filesystem, an
empty args object and a configured fallback token persists exactly the
fallback token. -/
theorem setup_cold_start_witness :
    setup { stateDir := "st", args := some {}, settings := { token := some "fallback" } }
        [] =
      .ok ({ token := some "fallback" }, [("st" ++ "/token", "fallback")]) ∧
    fsRead [("st" ++ "/token", "fallback")] ("st" ++ "/token") = some "fallback" :=
  (setup_cold_start
      { stateDir := "st", args := some {}, settings := { token := some "fallback" } }
      [] {} rfl (Or.inl rfl)).1 "fallback" rfl

/-- C7: at warm start (a token file is persisted and `force` is not set)
with a token or token file supplied on the command line, `setup` ignores
the supplied credential: it loads the persisted token (and the cached
expiry artifact when present) and returns the filesystem unchanged. -/
theorem setup_warm_start (core : Core) (fs : FsState) (a : Args)
    (hargs : core.args = some a)
    (hforce : a.force = false)
    (hexists : fsExists fs (tokenPathOf core) = true)
    (hsupplied : jsTruthy a.token = true ∨ jsTruthy a.tokenFile = true) :
    setup core fs =
      .ok ({ token := fsRead fs (tokenPathOf core),
             tokenExpires :=
               if fsExists fs (tokenExpirationPathOf core) then
                 fsRead fs (tokenExpirationPathOf core)
               else none }, fs) := by
  have hov : forcedOverride core = false := by
    unfold forcedOverride
    rw [hargs]
    simp [hforce]
  have hcond : (!fsExists fs (tokenPathOf core) || forcedOverride core) = false := by
    simp [hexists, hov]
  rcases hr : fsRead fs (tokenPathOf core) with _ | t
  · have hsome := fsRead_isSome_eq_fsExists fs (tokenPathOf core)
    rw [hr, hexists] at hsome
    cases hsome
  · rcases Bool.eq_false_or_eq_true (fsExists fs (tokenExpirationPathOf core)) with he | he <;>
      simp [setup, hcond, loadToken, hr, he]

/-- Witness for the C7 theorem: a persisted token plus expiry and a
conflicting command-line token without `force` — the persisted pair is
used and the filesystem is untouched. -/
theorem setup_warm_start_witness :
    setup { stateDir := "st", args := some { token := some "cli" } }
        [("st" ++ "/token", "persisted"), ("st" ++ "/token.expiration", "exp1")] =
      .ok ({ token := some "persisted", tokenExpires := some "exp1" },
           [("st" ++ "/token", "persisted"), ("st" ++ "/token.expiration", "exp1")]) := by
  have h := setup_warm_start
      { stateDir := "st", args := some { token := some "cli" } }
      [("st" ++ "/token", "persisted"), ("st" ++ "/token.expiration", "exp1")]
      { token := some "cli" } rfl rfl (by decide) (Or.inl (by decide))
  rw [h]
  rfl

end Morrigan
